import Mathlib

/-
  Verification development for the xedis embedded key-value store
  (src/index.ts).  The TypeScript source is shallowly embedded:

  * JavaScript objects (the in-memory `store` and the `expiration_table`)
    are insertion-ordered association lists: assigning to an existing key
    updates its value in place, assigning a fresh key appends, `delete`
    removes the entry.
  * `Date` time values are integer millisecond timestamps (`Int`); the
    `Date` constructor truncates a fractional millisecond argument toward
    zero, which `jsTrunc` models.  JavaScript numbers appearing as
    durations are modelled as exact rationals.
  * `setTimeout` handles are consecutive naturals; the set of scheduled,
    uncancelled, unfired removal callbacks is the `pending` list of the
    machine state.  Firing a pending timer runs the captured callback
    `function remove() { del(key); }`.
  * The append-only journal is carried both abstractly (the ordered list
    of `writeToDisk` calls: key plus record-or-tombstone) and concretely
    (the exact text `"<key>":<json>,` appended to persistent.aof).
-/

/-! ### JavaScript primitives -/

/-- Model of `String.prototype.substr(start, length)` (ECMA-262): a negative
`start` counts from the end (clamped at 0); at most `length` characters
from there. -/
def jsSubstr (s : String) (start length : Int) : String :=
  let size : Int := (s.length : Int)
  let intStart : Int := if start < 0 then max (size + start) 0 else start
  if intStart ≥ size ∨ length ≤ 0 then ""
  else
    let intEnd : Int := min (intStart + length) size
    (((s.toList).drop intStart.toNat).take (intEnd - intStart).toNat).asString

/-- Model of `String.prototype.padStart(targetLength, pad)` for a one-character
pad string, the only way the source uses it. -/
def jsPadStart (s : String) (targetLength : Int) (pad : Char) : String :=
  if targetLength ≤ (s.length : Int) then s
  else (List.replicate (targetLength.toNat - s.length) pad).asString ++ s

/-- The time value stored by `new Date(ms)`: `ms` truncated toward
zero (`ToIntegerOrInfinity`).  On a reduced rational, T-division of the
numerator by the (positive) denominator is exactly truncation toward
zero. -/
def jsTrunc (q : ℚ) : Int := q.num / (q.den : Int)

theorem jsTrunc_intCast (n : Int) : jsTrunc (n : ℚ) = n := by
  simp [jsTrunc]

theorem jsTrunc_eq_of_cast (x : ℚ) (d : Int) (h : x = (d : ℚ)) : jsTrunc x = d := by
  rw [h, jsTrunc_intCast]

/-! ### `Number(string)` coercion (NaN test only)

`incr` guards on `Number.isNaN(Number(value))`.  We model the decision
"does `Number(value)` produce NaN?" following the ECMA-262
StringNumericLiteral grammar: trimmed-empty coerces to 0, otherwise a
signed decimal literal (with optional fraction and exponent), an
`Infinity`, or an unsigned binary/octal/hex literal. -/

def jsWhitespace (c : Char) : Bool :=
  c = ' ' ∨ c = '\t' ∨ c = '\n' ∨ c = '\r' ∨ c = '\x0b' ∨ c = '\x0c'

def jsIsHexDigit (c : Char) : Bool :=
  c.isDigit ∨ ('a' ≤ c ∧ c ≤ 'f') ∨ ('A' ≤ c ∧ c ≤ 'F')

/-- Optional exponent part `(e|E)(+|-)?digits`, which must consume the
whole remaining input. -/
def jsMatchExponent (cs : List Char) : Bool :=
  match cs with
  | [] => true
  | 'e' :: rest | 'E' :: rest =>
    let rest := match rest with
      | '+' :: r => r
      | '-' :: r => r
      | r => r
    rest ≠ [] ∧ rest.all Char.isDigit
  | _ => false

/-- Unsigned decimal literal: `digits(.digits?)?exp?` or `.digits exp?`
or `Infinity`, consuming the whole input. -/
def jsMatchUnsignedDecimal (cs : List Char) : Bool :=
  if cs = 'I' :: 'n' :: 'f' :: 'i' :: 'n' :: 'i' :: 't' :: 'y' :: [] then true
  else
    let intPart := cs.takeWhile Char.isDigit
    let rest := cs.dropWhile Char.isDigit
    if intPart ≠ [] then
      match rest with
      | '.' :: r => jsMatchExponent (r.dropWhile Char.isDigit)
      | r => jsMatchExponent r
    else
      match cs with
      | '.' :: r =>
        (r.takeWhile Char.isDigit) ≠ [] ∧ jsMatchExponent (r.dropWhile Char.isDigit)
      | _ => false

/-- Truth value of `Number.isNaN(Number(v)) = false`. -/
def jsIsNumeric (v : String) : Bool :=
  let cs := ((v.toList.dropWhile jsWhitespace).reverse.dropWhile jsWhitespace).reverse
  match cs with
  | [] => true
  | '0' :: 'x' :: r | '0' :: 'X' :: r => r ≠ [] ∧ r.all jsIsHexDigit
  | '0' :: 'o' :: r | '0' :: 'O' :: r => r ≠ [] ∧ r.all (fun c => '0' ≤ c ∧ c ≤ '7')
  | '0' :: 'b' :: r | '0' :: 'B' :: r => r ≠ [] ∧ r.all (fun c => c = '0' ∨ c = '1')
  | '+' :: r | '-' :: r => jsMatchUnsignedDecimal r
  | r => jsMatchUnsignedDecimal r

/-! ### JavaScript objects as insertion-ordered association lists -/

/-- Property read `o[k]`. -/
def objGet {α : Type} : List (String × α) → String → Option α
  | [], _ => none
  | p :: rest, k => if p.1 = k then some p.2 else objGet rest k

/-- Test `o.hasOwnProperty(k)`. -/
def objMem {α : Type} (l : List (String × α)) (k : String) : Bool :=
  (objGet l k).isSome

/-- Property write `o[k] = v`: updates in place, else appends. -/
def objSet {α : Type} : List (String × α) → String → α → List (String × α)
  | [], k, v => [(k, v)]
  | p :: rest, k, v => if p.1 = k then (k, v) :: rest else p :: objSet rest k v

/-- Property removal `delete o[k]`. -/
def objDel {α : Type} : List (String × α) → String → List (String × α)
  | [], _ => []
  | p :: rest, k => if p.1 = k then objDel rest k else p :: objDel rest k

theorem objGet_objSet_self {α : Type} (l : List (String × α)) (k : String) (v : α) :
    objGet (objSet l k v) k = some v := by
  induction l with
  | nil => simp [objSet, objGet]
  | cons p rest ih =>
    by_cases h : p.1 = k
    · simp [objSet, h, objGet]
    · simp [objSet, h, objGet, ih]

theorem objGet_objSet_ne {α : Type} (l : List (String × α)) (k k' : String) (v : α)
    (h : k ≠ k') : objGet (objSet l k v) k' = objGet l k' := by
  induction l with
  | nil => simp [objSet, objGet, h]
  | cons p rest ih =>
    by_cases hp : p.1 = k
    · simp [objSet, hp, objGet, h]
    · by_cases hp' : p.1 = k'
      · simp [objSet, hp, objGet, hp', Ne.symm h]
      · simp [objSet, hp, objGet, hp', ih]

/-! ### JSON values

The journal and the snapshot only ever contain the JSON values produced
by `JSON.stringify` on the store: objects whose fields are strings, and
`null` tombstones.  Numbers, booleans and arrays never occur in the
files the source writes, and the generated text contains no whitespace,
so the parser model covers exactly the whitespace-free subset of JSON
over strings, objects and `null`. -/

inductive JVal where
  | null : JVal
  | str : String → JVal
  | obj : List (String × JVal) → JVal

/-- One character of `JSON.stringify` string quoting. -/
def jsonEscapeChar (c : Char) : String :=
  if c = '"' then "\\\""
  else if c = '\\' then "\\\\"
  else if c = '\x08' then "\\b"
  else if c = '\x0c' then "\\f"
  else if c = '\n' then "\\n"
  else if c = '\r' then "\\r"
  else if c = '\t' then "\\t"
  else if c.toNat < 32 then
    "\\u00" ++ String.singleton (Nat.digitChar (c.toNat / 16))
      ++ String.singleton (Nat.digitChar (c.toNat % 16))
  else String.singleton c

def jsonEscape (s : String) : String :=
  String.join (s.toList.map jsonEscapeChar)

mutual

def stringifyJVal : JVal → String
  | .null => "null"
  | .str s => "\"" ++ jsonEscape s ++ "\""
  | .obj ms => "\x7b" ++ stringifyMembers ms ++ "\x7d"

def stringifyMembers : List (String × JVal) → String
  | [] => ""
  | [(k, v)] => "\"" ++ jsonEscape k ++ "\":" ++ stringifyJVal v
  | (k, v) :: m :: rest =>
    "\"" ++ jsonEscape k ++ "\":" ++ stringifyJVal v ++ "," ++ stringifyMembers (m :: rest)

end

/-! ### JSON parsing (the `JSON.parse` the recovery path relies on) -/

def hexVal (c : Char) : Option Nat :=
  if c.isDigit then some (c.toNat - '0'.toNat)
  else if 'a' ≤ c ∧ c ≤ 'f' then some (c.toNat - 'a'.toNat + 10)
  else if 'A' ≤ c ∧ c ≤ 'F' then some (c.toNat - 'A'.toNat + 10)
  else none

def unescapeChar (e : Char) : Option Char :=
  if e = '"' then some '"'
  else if e = '\\' then some '\\'
  else if e = '/' then some '/'
  else if e = 'b' then some '\x08'
  else if e = 'f' then some '\x0c'
  else if e = 'n' then some '\n'
  else if e = 'r' then some '\r'
  else if e = 't' then some '\t'
  else none

/-- Body of a JSON string literal, after the opening quote; returns the
decoded string and the input following the closing quote. -/
def parseStringBody : List Char → Option (String × List Char)
  | [] => none
  | '"' :: rest => some ("", rest)
  | '\\' :: 'u' :: a :: b :: c :: d :: rest =>
    match hexVal a, hexVal b, hexVal c, hexVal d with
    | some ha, some hb, some hc, some hd =>
      (parseStringBody rest).map (fun p =>
        (String.singleton (Char.ofNat (((ha * 16 + hb) * 16 + hc) * 16 + hd)) ++ p.1, p.2))
    | _, _, _, _ => none
  | '\\' :: e :: rest =>
    match unescapeChar e with
    | some c => (parseStringBody rest).map (fun p => (String.singleton c ++ p.1, p.2))
    | none => none
  | c :: rest =>
    if c.toNat < 32 then none
    else (parseStringBody rest).map (fun p => (String.singleton c ++ p.1, p.2))

mutual

def parseJVal : Nat → List Char → Option (JVal × List Char)
  | 0, _ => none
  | _ + 1, 'n' :: 'u' :: 'l' :: 'l' :: rest => some (.null, rest)
  | _ + 1, '"' :: rest => (parseStringBody rest).map (fun p => (.str p.1, p.2))
  | fuel + 1, '\x7b' :: rest =>
    match rest with
    | '\x7d' :: r2 => some (.obj [], r2)
    | _ => (parseMembers fuel rest).map (fun p => (.obj p.1, p.2))
  | _ + 1, _ => none

def parseMembers : Nat → List Char → Option (List (String × JVal) × List Char)
  | 0, _ => none
  | fuel + 1, '"' :: rest =>
    match parseStringBody rest with
    | some (k, ':' :: rest2) =>
      match parseJVal fuel rest2 with
      | some (v, ',' :: rest3) =>
        (parseMembers fuel rest3).map (fun p => ((k, v) :: p.1, p.2))
      | some (v, '\x7d' :: rest3) => some ([(k, v)], rest3)
      | _ => none
    | _ => none
  | _ + 1, _ => none

end

/-- Model of `JSON.parse`, required to consume the whole input.  The fuel
`s.length + 1` dominates the recursion depth, which advances through the
input by at least one character per unit of fuel spent. -/
def jsonParse (s : String) : Option JVal :=
  match parseJVal (s.length + 1) s.toList with
  | some (v, []) => some v
  | _ => none

/-! ### `Date.prototype.toISOString` (what `JSON.stringify` emits for the
`expiration` field of a record) -/

def pad2 (n : Nat) : String :=
  (if n < 10 then "0" else "") ++ toString n

def pad3 (n : Nat) : String :=
  (if n < 100 then if n < 10 then "00" else "0" else "") ++ toString n

def pad4 (n : Nat) : String :=
  (if n < 1000 then if n < 100 then if n < 10 then "000" else "00" else "0" else "")
    ++ toString n

/-- Proleptic-Gregorian civil date from days since 1970-01-01
(the Howard Hinnant `civil_from_days` algorithm). -/
def civilFromDays (z0 : Int) : Int × Nat × Nat :=
  let z := z0 + 719468
  let era : Int := Int.fdiv z 146097
  let doe : Nat := (z - era * 146097).toNat
  let yoe : Nat := (doe - doe / 1460 + doe / 36524 - doe / 146096) / 365
  let y : Int := (yoe : Int) + era * 400
  let doy : Nat := doe - (365 * yoe + yoe / 4 - yoe / 100)
  let mp : Nat := (5 * doy + 2) / 153
  let d : Nat := doy - (153 * mp + 2) / 5 + 1
  let m : Nat := if mp < 10 then mp + 3 else mp - 9
  (if m ≤ 2 then y + 1 else y, m, d)

/-- Rendering `toISOString` of a time value (years 0–9999, the four-digit format). -/
def isoOfMs (t : Int) : String :=
  let days : Int := Int.fdiv t 86400000
  let msOfDay : Nat := (Int.fmod t 86400000).toNat
  let ymd := civilFromDays days
  pad4 ymd.1.toNat ++ "-" ++ pad2 ymd.2.1 ++ "-" ++ pad2 ymd.2.2
    ++ "T" ++ pad2 (msOfDay / 3600000) ++ ":" ++ pad2 (msOfDay % 3600000 / 60000)
    ++ ":" ++ pad2 (msOfDay % 60000 / 1000) ++ "." ++ pad3 (msOfDay % 1000) ++ "Z"

/-! ### Records and the on-disk texts -/

/-- The record objects held in `store`: `{ value, expiration? }`, the
expiration being a `Date` (an integer millisecond time value here). -/
structure XRecord where
  value : String
  expiration : Option Int
deriving DecidableEq, Repr

/-- The `JSON.stringify` image of a record object (field insertion order:
`value` first, then `expiration` when present, which stringifies the
`Date` via `toISOString`). -/
def recordToJVal (r : XRecord) : JVal :=
  match r.expiration with
  | some d => .obj [("value", .str r.value), ("expiration", .str (isoOfMs d))]
  | none => .obj [("value", .str r.value)]

/-- The exact text one `writeToDisk(key, value)` call appends to
`persistent.aof`: `"<key>":<value>,` — note the key is interpolated
verbatim, not JSON-escaped. -/
def fragmentOf (key : String) (v : Option XRecord) : String :=
  "\"" ++ key ++ "\":"
    ++ (match v with
        | some r => stringifyJVal (recordToJVal r)
        | none => "null")
    ++ ","

/-- Full journal text: the concatenation of the appended fragments. -/
def aofOfJournal (j : List (String × Option XRecord)) : String :=
  j.foldl (fun acc e => acc ++ fragmentOf e.1 e.2) ""

/-- Text of `JSON.stringify(store)` (also the snapshot file written by
`save`/`bgsave`). -/
def stringifyStore (store : List (String × XRecord)) : String :=
  stringifyJVal (.obj (store.map (fun p => (p.1, recordToJVal p.2))))

/-- The text `bgrewriteaof` replaces the journal file with:
`json.substr(1, json.length - 1) + ","` for `json = JSON.stringify(store)`. -/
def bgrewriteaofContent (store : List (String × XRecord)) : String :=
  let json := stringifyStore store
  jsSubstr json 1 ((json.length : Int) - 1) ++ ","

/-! ### Startup recovery (create_store lines 72–89)

`Object.assign(store, JSON.parse(...))` copies the properties of the
parsed object in order; duplicate keys have already been collapsed by
`JSON.parse` itself (last value wins, first position kept), which
`assignObj` reproduces.  The recovered store maps keys to arbitrary
parsed JSON values — in particular a `null` journal tombstone is copied
as a property whose value is `null`, not removed. -/

def assignObj (ms : List (String × JVal)) : List (String × JVal) :=
  ms.foldl (fun acc m => objSet acc m.1 m.2) []

/-- Wrapping step of recovery: the template literal that brace-wraps
`aof.substr(0, aof.length - 1)`. -/
def wrapAof (aof : String) : String :=
  "\x7b" ++ jsSubstr aof 0 ((aof.length : Int) - 1) ++ "\x7d"

/-- The `try` branch: parse the wrapped journal.  A successful parse of
a brace-wrapped text is always an object; `Object.assign` from any
non-object primitive would copy nothing. -/
def recoverFromAof (aof : String) : Option (List (String × JVal)) :=
  match jsonParse (wrapAof aof) with
  | some (.obj ms) => some (assignObj ms)
  | some _ => some []
  | none => none

/-- Store contents after the recovery block: journal first; on a parse
failure the snapshot, if present and readable; otherwise empty.  `none`
for a file argument means the file does not exist.  No branch throws out
of the block. -/
def recoverStore (aofContent backupContent : Option String) : List (String × JVal) :=
  match aofContent with
  | none => []
  | some aof =>
    match recoverFromAof aof with
    | some st => st
    | none =>
      match backupContent with
      | none => []
      | some b =>
        match jsonParse b with
        | some (.obj ms) => assignObj ms
        | some _ => []
        | none => []

/-! ### The live store machine (create_store closure state)

One `XState` is the mutable state captured by `create_store`: the
`store` object, the `expiration_table` object, the set of scheduled
removal callbacks not yet cancelled or fired, the next `setTimeout`
handle, and the journal as the ordered list of `writeToDisk` appends. -/

/-- An `expiration_table` entry: `{ timeout, datetime }`. -/
structure ExpEntry where
  timeout : Nat
  datetime : Int
deriving DecidableEq, Repr

structure XState where
  store : List (String × XRecord)
  expTable : List (String × ExpEntry)
  pending : List (Nat × String)
  nextId : Nat
  journal : List (String × Option XRecord)
deriving DecidableEq, Repr

/-- Command-level errors the operations can raise: the
"key does not exist" `Error`, the INCR/DECR `Error`, and the raw
`TypeError` from reading a property of `undefined`. -/
inductive XErr where
  | notFound (key : String)
  | typeMismatch
  | typeError
deriving DecidableEq, Repr

namespace Xedis

def initState : XState := ⟨[], [], [], 0, []⟩

/-- Append path `writeToDisk(key, value)`: appends `"<key>":<value>,` unless the key
is falsy (the empty string). -/
def writeToDisk (s : XState) (key : String) (value : Option XRecord) : XState :=
  if key = "" then s
  else { s with journal := s.journal ++ [(key, value)] }

/-- Command `set(key, value, expirationInSeconds?)`.  With a ttl it overwrites
`expiration_table[key]` with a freshly scheduled timeout — without
clearing the previously scheduled one — then installs the record and
journals it. -/
def set (s : XState) (now : Int) (key value : String)
    (expirationInSeconds : Option ℚ) : XState :=
  match expirationInSeconds with
  | some secs =>
    let deadline := jsTrunc ((now : ℚ) + secs * 1000)
    let s1 : XState := { s with
      expTable := objSet s.expTable key ⟨s.nextId, deadline⟩,
      pending := s.pending ++ [(s.nextId, key)],
      nextId := s.nextId + 1 }
    let obj : XRecord := ⟨value, some deadline⟩
    writeToDisk { s1 with store := objSet s1.store key obj } key (some obj)
  | none =>
    let obj : XRecord := ⟨value, none⟩
    writeToDisk { s with store := objSet s.store key obj } key (some obj)

/-- Command `get(key)`: reading `.value` of a missing entry throws, caught and
re-thrown as the "does not exist" error. -/
def get (s : XState) (key : String) : Except XErr String :=
  match objGet s.store key with
  | some r => .ok r.value
  | none => .error (.notFound key)

/-- Command `del(key)`: `delete store[key]` never throws, so the catch branch is
dead and a tombstone is journalled even for an absent key. -/
def del (s : XState) (key : String) : XState :=
  writeToDisk { s with store := objDel s.store key } key none

/-- Command `exists(key)`: `store.hasOwnProperty(key)`. -/
def exists? (s : XState) (key : String) : Bool := objMem s.store key

/-- Command `expire(key, s)`: `get` then `set` with the same value. -/
def expire (s : XState) (now : Int) (key : String) (secs : ℚ) :
    Except XErr XState :=
  match get s key with
  | .ok v => .ok (set s now key v (some secs))
  | .error e => .error e

/-- Command `persist(key)`: reads `expiration_table[key].timeout` with no guard,
so a key without an active ttl raises a `TypeError`; otherwise the
pending timeout is cleared and the entry deleted. -/
def persist (s : XState) (key : String) : Except XErr XState :=
  match objGet s.expTable key with
  | none => .error .typeError
  | some e =>
    .ok { s with
      pending := s.pending.filter (fun t => t.1 ≠ e.timeout),
      expTable := objDel s.expTable key }

/-- Command `pttl(key)`: `-2` when the key is absent from `store`, `-1` when it
has no `expiration_table` entry, else `datetime - Date.now()` (which is
negative once the deadline has passed). -/
def pttl (s : XState) (now : Int) (key : String) : Int :=
  if exists? s key then
    match objGet s.expTable key with
    | some e => e.datetime - now
    | none => -1
  else -2

/-- Command `ttl(key)`: `pttl / 1e3` when non-negative (exact JS division is
modelled rationally), the sentinel unchanged otherwise. -/
def ttl (s : XState) (now : Int) (key : String) : ℚ :=
  let t := pttl s now key
  if t ≥ 0 then (t : ℚ) / 1000 else (t : ℚ)

/-- Command `append(key, value)`: `exists(key) ? get(key) + value : value`, then
`set` with the *remaining* ttl when that is ≥ 0. -/
def append (s : XState) (now : Int) (key value : String) : XState × Nat :=
  let newValue :=
    match objGet s.store key with
    | some r => r.value ++ value
    | none => value
  let expiration := ttl s now key
  (set s now key newValue (if expiration ≥ 0 then some expiration else none),
   newValue.length)

/-- Command `incr(key, step)`: for an existing key, after the NaN guard the new
value is `String(value + step)` — `value` is a string, so `+` is
JavaScript string concatenation of the value and the decimal form of
`step`. -/
def incr (s : XState) (now : Int) (key : String) (step : Int) :
    Except XErr (XState × String) :=
  match objGet s.store key with
  | some r =>
    if jsIsNumeric r.value then
      let newValue := r.value ++ toString step
      .ok (set s now key newValue none, newValue)
    else .error .typeMismatch
  | none =>
    .ok (set s now key (toString step) none, toString step)

/-- Command `decr(key) = incr(key, -1)`. -/
def decr (s : XState) (now : Int) (key : String) : Except XErr (XState × String) :=
  incr s now key (-1)

/-- Command `strlen(key)`: `exists(key) ? get(key).length : 0`. -/
def strlen (s : XState) (key : String) : Nat :=
  match objGet s.store key with
  | some r => r.value.length
  | none => 0

/-- Command `getrange(key, start, end)`: negative offsets get the length added,
then `string.substr(start, end)` — the second argument of `substr` is a
*length*, as the source passes it. -/
def getrange (s : XState) (key : String) (start endPos : Int) :
    Except XErr String :=
  match get s key with
  | .ok str =>
    let start := if start < 0 then start + (str.length : Int) else start
    let endPos := if endPos < 0 then endPos + (str.length : Int) else endPos
    .ok (jsSubstr str start endPos)
  | .error err => .error err

/-- Command `setrange(key, start, value)`: when writing past the current length
the source pads the *front* via `padStart`, then concatenates `value`,
then a trailing remainder if the result is still shorter. -/
def setrange (s : XState) (now : Int) (key : String) (start : Int)
    (value : String) : Except XErr (XState × Nat) :=
  let length : Int := (strlen s key : Int)
  let part : Except XErr String :=
    if length < start then
      (getrange s key 0 length).map (fun g => jsPadStart g start '\x00')
    else getrange s key 0 start
  match part with
  | .error e => .error e
  | .ok str0 =>
    let str1 := str0 ++ value
    let str2 : Except XErr String :=
      if (str1.length : Int) < length then
        (getrange s key (start + (value.length : Int)) length).map
          (fun b => str1 ++ b)
      else .ok str1
    match str2 with
    | .error e => .error e
    | .ok str => .ok (set s now key str none, str.length)

/-- Event-loop delivery of a scheduled removal: a timeout that was
neither cancelled (`clearTimeout`) nor already fired runs its captured
callback `function remove() { del(key); }`. -/
def fireTimer (s : XState) (tid : Nat) : XState :=
  match s.pending.find? (fun t => t.1 = tid) with
  | some t => del { s with pending := s.pending.filter (fun u => u.1 ≠ tid) } t.2
  | none => s

end Xedis

/-! ### Journal replay (the reconstruction the spec describes) -/

/-- One mutation event of the `set`/`del` command surface, with the
`Date.now()` instant at which it runs. -/
inductive Op where
  | setOp (key value : String) (ttl : Option ℚ)
  | delOp (key : String)
deriving DecidableEq

def Op.key : Op → String
  | .setOp k _ _ => k
  | .delOp k => k

def runOp (s : XState) (e : Int × Op) : XState :=
  match e.2 with
  | .setOp k v t => Xedis.set s e.1 k v t
  | .delOp k => Xedis.del s k

def runOps (s : XState) (l : List (Int × Op)) : XState := l.foldl runOp s

/-- Replay semantics named by the spec: in order, last entry per key
wins, a tombstone removes the key. -/
def replayStep (acc : List (String × XRecord)) (e : String × Option XRecord) :
    List (String × XRecord) :=
  match e.2 with
  | some r => objSet acc e.1 r
  | none => objDel acc e.1

def replay (j : List (String × Option XRecord)) : List (String × XRecord) :=
  j.foldl replayStep []

/-! ## Claims -/

theorem replay_append (j : List (String × Option XRecord))
    (e : String × Option XRecord) :
    replay (j ++ [e]) = replayStep (replay j) e := by
  simp [replay, List.foldl_append]

theorem replay_runOps_invariant (ops : List (Int × Op)) :
    ∀ s : XState, (∀ e ∈ ops, (e.2).key ≠ "") →
      replay s.journal = s.store →
      replay (runOps s ops).journal = (runOps s ops).store := by
  induction ops with
  | nil => intro s _ hs; simpa [runOps] using hs
  | cons hd tl ih =>
    intro s h hs
    have h1 : (hd.2).key ≠ "" := h hd (List.mem_cons_self _ _)
    have htl : ∀ e ∈ tl, (e.2).key ≠ "" := fun e he => h e (List.mem_cons_of_mem _ he)
    have hstep : runOps s (hd :: tl) = runOps (runOp s hd) tl := rfl
    rw [hstep]
    apply ih _ htl
    obtain ⟨now, op⟩ := hd
    cases op with
    | setOp k v t =>
      simp only [Op.key] at h1
      cases t with
      | none =>
        simp [runOp, Xedis.set, Xedis.writeToDisk, h1, replay_append, replayStep, hs]
      | some secs =>
        simp [runOp, Xedis.set, Xedis.writeToDisk, h1, replay_append, replayStep, hs]
    | delOp k =>
      simp only [Op.key] at h1
      simp [runOp, Xedis.del, Xedis.writeToDisk, h1, replay_append, replayStep, hs]

/-- C1: for every sequence of `set` and `del` operations (over the
domain of non-empty store keys), replaying the journal entries in
order from an empty store — last entry per key wins, a tombstone
removes the key — reconstructs exactly the live in-memory store.  No
key can expire during a `set`/`del` sequence (scheduler firings go
through `del` and would be further journalled tombstones), so the
equality is exact. -/
theorem c1_journal_replay_reconstructs_store (ops : List (Int × Op))
    (hkeys : ∀ e ∈ ops, (e.2).key ≠ "") :
    replay (runOps Xedis.initState ops).journal = (runOps Xedis.initState ops).store :=
  replay_runOps_invariant ops Xedis.initState hkeys rfl

def c1ExampleOps : List (Int × Op) :=
  [(0, Op.setOp "a" "1" none), (5, Op.setOp "b" "2" (some 5)),
   (9, Op.delOp "a"), (12, Op.setOp "a" "3" none), (20, Op.delOp "missing")]

theorem c1_journal_replay_reconstructs_store_witness :
    (∀ e ∈ c1ExampleOps, (e.2).key ≠ "") ∧
      replay (runOps Xedis.initState c1ExampleOps).journal =
        (runOps Xedis.initState c1ExampleOps).store :=
  ⟨by decide, c1_journal_replay_reconstructs_store c1ExampleOps (by decide)⟩

/-! ## C2: recovery and a dangling trailing journal entry -/

/-- Journal text of one complete entry: `"a":{"value":"x"},`. -/
def c2ValidEntry : String := fragmentOf "a" (some ⟨"x", none⟩)

/-- The same journal after a crash mid-append of a second entry. -/
def c2Dangling : String := c2ValidEntry ++ "\"b\":\x7b\"va"

/-- The store state implied by the valid prefix. -/
def c2PrefixStore : List (String × JVal) :=
  [("a", JVal.obj [("value", JVal.str "x")])]

/-- C2 counterexample: with a valid prefix followed by a dangling,
incomplete trailing entry, startup recovery does *not* yield the state
implied by the valid prefix — the whole-file `JSON.parse` fails and,
with no snapshot, the store comes up empty, so the claim is false at
this input. -/
theorem c2_dangling_entry_counterexample :
    recoverStore (some c2Dangling) none = [] ∧ c2PrefixStore ≠ [] :=
  ⟨rfl, by simp [c2PrefixStore]⟩

/-- C2 (amended): recovery parses the journal as one wrapped JSON text,
so a journal ending exactly after a complete entry is recovered to the
state implied by its entries, but a dangling incomplete trailing entry
makes the entire parse fail and recovery silently falls back to the
snapshot when it is readable, and to the empty store otherwise — the
valid prefix is discarded along with the fragment.  No error is
raised. -/
theorem c2_recovery_falls_back_to_snapshot :
    recoverStore (some c2ValidEntry) none = c2PrefixStore ∧
    recoverFromAof c2Dangling = none ∧
    recoverStore (some c2Dangling) none = [] ∧
    recoverStore (some c2Dangling) (some (stringifyStore [("c", ⟨"y", none⟩)])) =
      [("c", JVal.obj [("value", JVal.str "y")])] :=
  ⟨rfl, rfl, rfl, rfl⟩

/-! ## C3: bgrewriteaof versus a subsequent recovery -/

/-- C3 (code bug): `bgrewriteaof` writes
`json.substr(1, json.length - 1) + ","`, which removes only the leading
`{` of `JSON.stringify(store)` and keeps the closing `}`.  For the
one-key live store `a ↦ "x"` the rewritten journal is
`"a":{"value":"x"}},` — one entry per live key, but with a stray
closing brace, so the startup recovery parse of the rewritten journal
fails and (with no snapshot) yields the empty store instead of the
live store. -/
theorem c3_bgrewriteaof_output_unrecoverable :
    bgrewriteaofContent [("a", ⟨"x", none⟩)] = "\"a\":\x7b\"value\":\"x\"\x7d\x7d," ∧
    recoverFromAof (bgrewriteaofContent [("a", ⟨"x", none⟩)]) = none ∧
    recoverStore (some (bgrewriteaofContent [("a", ⟨"x", none⟩)])) none = [] ∧
    ([] : List (String × JVal)) ≠ [("a", JVal.obj [("value", JVal.str "x")])] :=
  ⟨rfl, rfl, rfl, by simp⟩

/-! ## Helper lemmas about the state effects of `set` -/

theorem writeToDisk_store (s : XState) (k : String) (v : Option XRecord) :
    (Xedis.writeToDisk s k v).store = s.store := by
  unfold Xedis.writeToDisk; split <;> rfl

theorem writeToDisk_expTable (s : XState) (k : String) (v : Option XRecord) :
    (Xedis.writeToDisk s k v).expTable = s.expTable := by
  unfold Xedis.writeToDisk; split <;> rfl

theorem set_none_store (s : XState) (now : Int) (k v : String) :
    (Xedis.set s now k v none).store = objSet s.store k ⟨v, none⟩ := by
  simp [Xedis.set, writeToDisk_store]

theorem set_none_expTable (s : XState) (now : Int) (k v : String) :
    (Xedis.set s now k v none).expTable = s.expTable := by
  simp [Xedis.set, writeToDisk_expTable]

theorem set_some_store (s : XState) (now : Int) (k v : String) (q : ℚ) :
    (Xedis.set s now k v (some q)).store =
      objSet s.store k ⟨v, some (jsTrunc ((now : ℚ) + q * 1000))⟩ := by
  simp [Xedis.set, writeToDisk_store]

theorem set_some_expTable (s : XState) (now : Int) (k v : String) (q : ℚ) :
    (Xedis.set s now k v (some q)).expTable =
      objSet s.expTable k ⟨s.nextId, jsTrunc ((now : ℚ) + q * 1000)⟩ := by
  simp [Xedis.set, writeToDisk_expTable]

/-- Full-state effect of `set` with a ttl, with the scheduled deadline
already evaluated to the integer `d`. -/
theorem set_some_eq (s : XState) (now : Int) (k v : String) (q : ℚ) (d : Int)
    (h : (now : ℚ) + q * 1000 = (d : ℚ)) (hk : ¬ k = "") :
    Xedis.set s now k v (some q) =
      { s with
        store := objSet s.store k ⟨v, some d⟩,
        expTable := objSet s.expTable k ⟨s.nextId, d⟩,
        pending := s.pending ++ [(s.nextId, k)],
        nextId := s.nextId + 1,
        journal := s.journal ++ [(k, some ⟨v, some d⟩)] } := by
  have hd : jsTrunc ((now : ℚ) + q * 1000) = d := jsTrunc_eq_of_cast _ _ h
  simp [Xedis.set, Xedis.writeToDisk, hk, hd]

/-! ## C4: pending removal tasks are not cancelled by `set` -/

/-- The machine after `set("k","v",1)` at t=0. -/
def c4s1 : XState := Xedis.set Xedis.initState 0 "k" "v" (some 1)

/-- The machine after a further `set("k","v2",100)` at t=10: the second `set`
overwrites `expiration_table.k` but never calls `clearTimeout`. -/
def c4Run : XState := Xedis.set c4s1 10 "k" "v2" (some 100)

theorem c4s1_eq :
    c4s1 = ⟨[("k", ⟨"v", some 1000⟩)], [("k", ⟨0, 1000⟩)], [(0, "k")], 1,
      [("k", some ⟨"v", some 1000⟩)]⟩ := by
  rw [c4s1, set_some_eq Xedis.initState 0 "k" "v" 1 1000 (by norm_num) (by decide)]
  decide

theorem c4Run_eq :
    c4Run = ⟨[("k", ⟨"v2", some 100010⟩)], [("k", ⟨1, 100010⟩)],
      [(0, "k"), (1, "k")], 2,
      [("k", some ⟨"v", some 1000⟩), ("k", some ⟨"v2", some 100010⟩)]⟩ := by
  rw [c4Run, c4s1_eq, set_some_eq _ 10 "k" "v2" 100 100010 (by norm_num) (by decide)]
  decide

/-- C4 (code bug): after replacing the ttl of `k`, *two* removal tasks
for `k` are still scheduled — `set` installs a new timeout without
cancelling the old one — and when the first (stale) timeout fires, its
callback `del("k")` removes the key even though its ttl had been
replaced with a 100-second deadline. -/
theorem c4_stale_removal_fires_after_ttl_replaced :
    (c4Run.pending.filter (fun t => t.2 = "k")).length = 2 ∧
    objGet c4Run.expTable "k" = some ⟨1, 100010⟩ ∧
    Xedis.exists? c4Run "k" = true ∧
    objGet (Xedis.fireTimer c4Run 0).store "k" = none := by
  rw [c4Run_eq]
  decide

/-! ## C5: ttl / pttl return values -/

/-- State in which `k` was given a 1-second ttl at t=0 and the removal
has not yet fired. -/
def c5OverdueState : XState := Xedis.set Xedis.initState 0 "k" "v" (some 1)

theorem c5OverdueState_eq :
    c5OverdueState = ⟨[("k", ⟨"v", some 1000⟩)], [("k", ⟨0, 1000⟩)], [(0, "k")], 1,
      [("k", some ⟨"v", some 1000⟩)]⟩ := by
  rw [c5OverdueState, set_some_eq Xedis.initState 0 "k" "v" 1 1000 (by norm_num) (by decide)]
  decide

/-- C5 counterexample: at t=2500 (removal delayed, not yet delivered)
the key is still present and `pttl` returns `-1500` — a negative
number, not the claimed non-negative remaining duration (and `ttl`
passes the negative value through untouched). -/
theorem c5_pttl_negative_counterexample :
    Xedis.exists? c5OverdueState "k" = true ∧
    Xedis.pttl c5OverdueState 2500 "k" = -1500 ∧
    Xedis.ttl c5OverdueState 2500 "k" = -1500 := by
  rw [c5OverdueState_eq]
  refine ⟨by decide, by decide, ?_⟩
  rw [Xedis.ttl, show Xedis.pttl ⟨[("k", ⟨"v", some 1000⟩)], [("k", ⟨0, 1000⟩)],
    [(0, "k")], 1, [("k", some ⟨"v", some 1000⟩)]⟩ 2500 "k" = -1500 by decide]
  norm_num

/-- C5 (amended): `pttl` returns `-2` when the key is absent and `-1`
when it is present without an `expiration_table` entry; otherwise it
returns `datetime - now`, which is non-negative exactly as long as the
deadline has not passed (it goes negative for an overdue key whose
removal has not fired).  `ttl` divides a non-negative `pttl` by 1000,
so immediately after `expire(key, 10)` it lies in (9, 10]. -/
theorem c5_ttl_pttl_return_values (s : XState) (now now2 : Int)
    (k k2 v : String) (q : ℚ) (r2 : XRecord)
    (hks : objGet s.store k = none)
    (hkt : objGet s.expTable k = none)
    (hk2 : objGet s.store k2 = some r2) :
    Xedis.pttl s now2 k = -2 ∧
    Xedis.pttl (Xedis.set s now k v none) now2 k = -1 ∧
    Xedis.pttl (Xedis.set s now k v (some q)) now2 k =
      jsTrunc ((now : ℚ) + q * 1000) - now2 ∧
    (now2 ≤ jsTrunc ((now : ℚ) + q * 1000) →
      0 ≤ Xedis.pttl (Xedis.set s now k v (some q)) now2 k) ∧
    Xedis.expire s now k2 10 = .ok (Xedis.set s now k2 r2.value (some 10)) ∧
    9 < Xedis.ttl (Xedis.set s now k2 r2.value (some 10)) now k2 ∧
    Xedis.ttl (Xedis.set s now k2 r2.value (some 10)) now k2 ≤ 10 := by
  have hD10 : jsTrunc ((now : ℚ) + 10 * 1000) = now + 10000 := by
    rw [show ((now : ℚ) + 10 * 1000) = ((now + 10000 : Int) : ℚ) by push_cast; ring,
      jsTrunc_intCast]
  have hpttl10 :
      Xedis.pttl (Xedis.set s now k2 r2.value (some 10)) now k2 = 10000 := by
    simp [Xedis.pttl, Xedis.exists?, objMem, set_some_store, set_some_expTable,
      objGet_objSet_self, hD10]
  refine ⟨?_, ?_, ?_, ?_, ?_, ?_, ?_⟩
  · simp [Xedis.pttl, Xedis.exists?, objMem, hks]
  · simp [Xedis.pttl, Xedis.exists?, objMem, set_none_store, set_none_expTable,
      objGet_objSet_self, hkt]
  · simp [Xedis.pttl, Xedis.exists?, objMem, set_some_store, set_some_expTable,
      objGet_objSet_self]
  · intro h
    simp only [Xedis.pttl, Xedis.exists?, objMem, set_some_store, set_some_expTable,
      objGet_objSet_self, Option.isSome_some, if_true]
    omega
  · simp [Xedis.expire, Xedis.get, hk2]
  · rw [Xedis.ttl, hpttl10]
    norm_num
  · rw [Xedis.ttl, hpttl10]
    norm_num

/-- Fixed concrete machine for the C5 witness: one live key `"p"`. -/
def c5WitnessState : XState := ⟨[("p", ⟨"w", none⟩)], [], [], 0, []⟩

theorem c5_ttl_pttl_return_values_witness :
    Xedis.pttl c5WitnessState 0 "a" = -2 ∧
    Xedis.pttl (Xedis.set c5WitnessState 0 "a" "v" none) 0 "a" = -1 ∧
    Xedis.pttl (Xedis.set c5WitnessState 0 "a" "v" (some 7)) 0 "a" = 7000 ∧
    0 ≤ Xedis.pttl (Xedis.set c5WitnessState 0 "a" "v" (some 7)) 0 "a" ∧
    Xedis.expire c5WitnessState 0 "p" 10 =
      .ok (Xedis.set c5WitnessState 0 "p" "w" (some 10)) ∧
    9 < Xedis.ttl (Xedis.set c5WitnessState 0 "p" "w" (some 10)) 0 "p" ∧
    Xedis.ttl (Xedis.set c5WitnessState 0 "p" "w" (some 10)) 0 "p" ≤ 10 := by
  obtain ⟨h1, h2, h3, h4, h5, h6, h7⟩ :=
    c5_ttl_pttl_return_values c5WitnessState 0 0 "a" "p" "v" 7 ⟨"w", none⟩
      (by decide) (by decide) (by decide)
  have e7 : jsTrunc (((0 : Int) : ℚ) + 7 * 1000) = 7000 :=
    jsTrunc_eq_of_cast _ _ (by norm_num)
  refine ⟨h1, h2, ?_, ?_, h5, h6, h7⟩
  · rw [h3, e7]
    omega
  · have := h4 (by rw [e7]; norm_num)
    exact this

/-! ## C6: incr / decr -/

/-- Store holding the numeric string `"5"` at `k`. -/
def c6FiveState : XState := Xedis.set Xedis.initState 0 "k" "5" none

/-- Store holding `"abc"` at `k`. -/
def c6AbcState : XState := Xedis.set Xedis.initState 0 "k" "abc" none

/-- C6 (code bug): `incr` on a missing key returns `"1"` and `incr` on
`"abc"` fails with the type-mismatch error, as claimed — but on an
existing numeric value the source computes `String(value + step)` where
`value` is a *string*, so `+` concatenates: `incr` of a key holding
`"5"` stores and returns `"51"`, not the numeric sum `"6"`.  `decr`
is literally `incr(key, -1)` (and so appends `"-1"`). -/
theorem c6_incr_concatenates_instead_of_adding :
    (Xedis.incr c6FiveState 1 "k" 1).map Prod.snd = .ok "51" ∧
    "51" ≠ "6" ∧
    (Xedis.incr Xedis.initState 0 "counter" 1).map Prod.snd = .ok "1" ∧
    Xedis.incr c6AbcState 1 "k" 1 = .error .typeMismatch ∧
    Xedis.decr c6FiveState 1 "k" = Xedis.incr c6FiveState 1 "k" (-1) ∧
    (Xedis.decr c6FiveState 1 "k").map Prod.snd = .ok "5-1" :=
  ⟨rfl, by decide, rfl, rfl, rfl, rfl⟩

/-! ## C7: getrange / setrange -/

/-- Store holding `"hello"` at `k`. -/
def c7State : XState := Xedis.set Xedis.initState 0 "k" "hello" none

/-- C7 (code bug): `getrange("hello", -3, -1)` does return `"llo"`
(offsets -3 and -1 become 2 and 4, and `substr(2, 4)` happens to
produce the right text), and `setrange(k, 10, "X")` on `"hello"` does return
length 11 — but the written value is `"\0\0\0\0\0helloX"`: the source
pads with `padStart`, which puts the five null bytes *before*
`"hello"`, not between it and `"X"` as the claim states. -/
theorem c7_setrange_pads_at_front :
    Xedis.getrange c7State "k" (-3) (-1) = .ok "llo" ∧
    (Xedis.setrange c7State 1 "k" 10 "X").map Prod.snd = .ok 11 ∧
    (Xedis.setrange c7State 1 "k" 10 "X").map (fun p => Xedis.get p.1 "k") =
      .ok (.ok "\x00\x00\x00\x00\x00helloX") ∧
    "\x00\x00\x00\x00\x00helloX" ≠ "hello\x00\x00\x00\x00\x00X" :=
  ⟨rfl, rfl, rfl, by decide⟩

/-! ## C8: append -/

/-- C8: on an absent key `append` is exactly `set(key, value)` (no ttl)
returning `value.length`; on a present key with an active
`expiration_table` entry whose deadline has not passed, `append`
concatenates, returns the resulting length, and re-installs the *same*
deadline: the source re-`set`s with the remaining ttl `pttl/1000`, and
`Date.now() + (pttl/1000)*1000` reproduces `datetime` exactly. -/
theorem c8_append_concat_preserves_ttl (s : XState) (now : Int) (k v : String)
    (r : XRecord) (e : ExpEntry) :
    (objGet s.store k = none →
      Xedis.append s now k v = (Xedis.set s now k v none, v.length)) ∧
    (objGet s.store k = some r → objGet s.expTable k = some e →
      now ≤ e.datetime →
      (Xedis.append s now k v).2 = (r.value ++ v).length ∧
      objGet (Xedis.append s now k v).1.store k =
        some ⟨r.value ++ v, some e.datetime⟩ ∧
      objGet (Xedis.append s now k v).1.expTable k =
        some ⟨s.nextId, e.datetime⟩) := by
  constructor
  · intro habs
    have httl : Xedis.ttl s now k = ((-2 : Int) : ℚ) := by
      simp [Xedis.ttl, Xedis.pttl, Xedis.exists?, objMem, habs]
    simp [Xedis.append, habs, httl]
    norm_num
  · intro hr he hle
    have hpttl : Xedis.pttl s now k = e.datetime - now := by
      simp [Xedis.pttl, Xedis.exists?, objMem, hr, he]
    have hq0 : (0 : ℚ) ≤ ((e.datetime : ℚ) - (now : ℚ)) / 1000 := by
      apply div_nonneg _ (by norm_num)
      rw [sub_nonneg]
      exact_mod_cast hle
    have httl : Xedis.ttl s now k = ((e.datetime - now : Int) : ℚ) / 1000 := by
      simp [Xedis.ttl, hpttl, sub_nonneg.mpr hle]
    have happ : Xedis.append s now k v =
        (Xedis.set s now k (r.value ++ v)
          (some (((e.datetime : ℚ) - (now : ℚ)) / 1000)), (r.value ++ v).length) := by
      simp [Xedis.append, hr, httl, hq0]
    have hD : jsTrunc ((now : ℚ) + (((e.datetime : ℚ) - (now : ℚ)) / 1000) * 1000)
        = e.datetime := by
      apply jsTrunc_eq_of_cast
      ring
    refine ⟨by rw [happ], ?_, ?_⟩
    · rw [happ]
      simp [set_some_store, hD, objGet_objSet_self, jsTrunc_intCast]
    · rw [happ]
      simp [set_some_expTable, hD, objGet_objSet_self, jsTrunc_intCast]

/-- Live key `"s" ↦ "foo"` with deadline 100000 and one scheduled
removal, as after `set("s","foo",100)` at t=0. -/
def c8WitnessState : XState :=
  ⟨[("s", ⟨"foo", some 100000⟩)], [("s", ⟨0, 100000⟩)], [(0, "s")], 1,
    [("s", some ⟨"foo", some 100000⟩)]⟩

theorem c8_append_concat_preserves_ttl_witness :
    Xedis.append Xedis.initState 0 "t" "foo" =
      (Xedis.set Xedis.initState 0 "t" "foo" none, 3) ∧
    (Xedis.append c8WitnessState 5 "s" "bar").2 = 6 ∧
    objGet (Xedis.append c8WitnessState 5 "s" "bar").1.store "s" =
      some ⟨"foobar", some 100000⟩ ∧
    objGet (Xedis.append c8WitnessState 5 "s" "bar").1.expTable "s" =
      some ⟨1, 100000⟩ := by
  obtain ⟨habs, _⟩ :=
    c8_append_concat_preserves_ttl Xedis.initState 0 "t" "foo" ⟨"", none⟩ ⟨0, 0⟩
  obtain ⟨_, hpres⟩ :=
    c8_append_concat_preserves_ttl c8WitnessState 5 "s" "bar"
      ⟨"foo", some 100000⟩ ⟨0, 100000⟩
  obtain ⟨l1, l2, l3⟩ := hpres (by decide) (by decide) (by decide)
  exact ⟨habs (by decide), l1.trans (by decide), l2, l3⟩

/-! ## C9: del on an absent key, persist without a ttl -/

/-- Two live keys, no ttl state at all. -/
def c9State : XState := ⟨[("m", ⟨"1", none⟩), ("k", ⟨"v", none⟩)], [], [], 0, []⟩

/-- C9 (code bug): `del` on an absent key is indeed a safe no-op on the
store (it never throws — `delete` of a missing property succeeds — and
merely journals a spurious tombstone).  But `persist` on a key without
an active ttl reads `.timeout` of `undefined` and raises a `TypeError`,
which is neither a no-op nor the NotFound signal the claim allows. -/
theorem c9_persist_without_ttl_raises_typeerror :
    (Xedis.del c9State "nope").store = c9State.store ∧
    (Xedis.del c9State "nope").journal = c9State.journal ++ [("nope", none)] ∧
    Xedis.persist c9State "k" = .error .typeError ∧
    XErr.typeError ≠ XErr.notFound "k" := by
  refine ⟨by decide, by decide, rfl, by decide⟩

/-! ## C10: an overdue key whose removal has not yet fired -/

/-- Key `"k"` with deadline 1000, removal scheduled but not delivered. -/
def c10State : XState :=
  ⟨[("k", ⟨"v", some 1000⟩)], [("k", ⟨0, 1000⟩)], [(0, "k")], 1,
    [("k", some ⟨"v", some 1000⟩)]⟩

/-- C10 counterexample: at `Date.now() = 1001` — deadline 1000 passed,
removal delayed by a millisecond — `pttl` returns `datetime - now =
-1`, which *is* one of the two sentinel values the claim says are never
returned for such a key (and at 1002 it would return `-2`). -/
theorem c10_pttl_sentinel_collision :
    Xedis.exists? c10State "k" = true ∧
    (1000 : Int) < 1001 ∧
    Xedis.pttl c10State 1001 "k" = -1 := by
  decide

/-- C10 (amended): a key whose deadline lies in the past but whose
removal has not executed stays fully observable — `get` returns the
stored value, `exists` is true, and `pttl` returns the negative
`datetime - now` (no read checks the deadline) — though that negative
value coincides with the sentinels `-1`/`-2` when `now` is exactly
`datetime + 1` or `datetime + 2`. -/
theorem c10_overdue_key_still_observable (s : XState) (now : Int) (k : String)
    (r : XRecord) (e : ExpEntry)
    (hr : objGet s.store k = some r) (he : objGet s.expTable k = some e)
    (hlt : e.datetime < now) :
    Xedis.get s k = .ok r.value ∧
    Xedis.exists? s k = true ∧
    Xedis.pttl s now k = e.datetime - now ∧
    Xedis.pttl s now k < 0 := by
  refine ⟨by simp [Xedis.get, hr], by simp [Xedis.exists?, objMem, hr], ?_, ?_⟩
  · simp [Xedis.pttl, Xedis.exists?, objMem, hr, he]
  · simp [Xedis.pttl, Xedis.exists?, objMem, hr, he]
    omega

theorem c10_overdue_key_still_observable_witness :
    Xedis.get c10State "k" = .ok "v" ∧
    Xedis.exists? c10State "k" = true ∧
    Xedis.pttl c10State 2500 "k" = -1500 ∧
    Xedis.pttl c10State 2500 "k" < 0 := by
  obtain ⟨h1, h2, h3, h4⟩ :=
    c10_overdue_key_still_observable c10State 2500 "k" ⟨"v", some 1000⟩ ⟨0, 1000⟩
      (by decide) (by decide) (by decide)
  exact ⟨h1, h2, h3.trans (by decide), h4⟩
